import Mathlib

/-!
# go-framebuf: a shallow embedding of package framebuf

Source files: fb.go (session, render loop), internal.go (draw/flush step,
fingerprint), util.go (colour helpers).

Conventions.
* Go uint8 / uint64 values are naturals reduced with an explicit modulus,
  int64 values (time.Duration) are integers wrapped into the int64 range.
* A Go panic is the value none (or Except.error).
* Time instants and durations are integers counting nanoseconds.
* Code of third-party and standard libraries (xxhash, imaging, image/draw,
  fmt, strings, time) is not part of the repository; each model of such a
  function says so in its comment.
-/

namespace Framebuf

/-! ## Machine integers -/

/-- Reduction of a natural to the uint64 range. -/
def u64 (n : Nat) : Nat := n % 2 ^ 64

/-- Reduction of a natural to the uint8 range. -/
def u8 (n : Nat) : Nat := n % 256

/-- Two-complement wrap of an integer into the int64 range. -/
def wrap64 (i : Int) : Int := (i + 2 ^ 63) % 2 ^ 64 - 2 ^ 63

/-- Largest int64, the value at which time.Time.Sub saturates. -/
def maxDuration : Int := 2 ^ 63 - 1

/-- Smallest int64. -/
def minDuration : Int := -(2 ^ 63)

/-! ## xxhash (third-party library github.com/cespare/xxhash, XXH64, seed 0) -/

namespace xxhash

def prime1 : Nat := 11400714785074694791
def prime2 : Nat := 14029467366897019727
def prime3 : Nat := 1609587929392839161
def prime4 : Nat := 9650029242287828579
def prime5 : Nat := 2870177450012600261

/-- Rotate a uint64 left by r bits (bits.RotateLeft64). -/
def rol (r x : Nat) : Nat := u64 (x <<< r) ||| (x >>> (64 - r))

/-- Library function round: acc += input * prime2; acc = rol31(acc); acc *= prime1. -/
def round (acc input : Nat) : Nat :=
  u64 (rol 31 (u64 (acc + u64 (input * prime2))) * prime1)

/-- Library function mergeRound. -/
def mergeRound (acc val : Nat) : Nat :=
  u64 (u64 ((acc ^^^ round 0 val) * prime1) + prime4)

/-- Little-endian value of a byte slice (the library helpers u64 and u32). -/
def le : List Nat → Nat
  | [] => 0
  | b :: bs => b + 256 * le bs

/-- The streaming state: four accumulators, the number of bytes written and
the bytes of the current incomplete 32-byte block (mem[:n] in the library). -/
structure Digest where
  v1 : Nat
  v2 : Nat
  v3 : Nat
  v4 : Nat
  total : Nat
  mem : List Nat

/-- Library function New (Reset): the initial state for seed 0. -/
def New : Digest :=
  { v1 := u64 (prime1 + prime2), v2 := prime2, v3 := 0, v4 := u64 (2 ^ 64 - prime1),
    total := 0, mem := [] }

/-- Library method Write applied to a one-byte slice, the only way hashImage
calls it: the byte is appended to the block, and a block that reaches 32
bytes is consumed by one round per accumulator. -/
def Write (d : Digest) (b : Nat) : Digest :=
  let mem := d.mem ++ [b]
  if mem.length < 32 then
    { d with total := u64 (d.total + 1), mem := mem }
  else
    { v1 := round d.v1 (le (mem.take 8)),
      v2 := round d.v2 (le ((mem.drop 8).take 8)),
      v3 := round d.v3 (le ((mem.drop 16).take 8)),
      v4 := round d.v4 (le ((mem.drop 24).take 8)),
      total := u64 (d.total + 1), mem := [] }

/-- Tail loop of Sum64 over whole 8-byte words of the remaining block. -/
def tail8 : Nat → List Nat → Nat × List Nat
  | h, b0 :: b1 :: b2 :: b3 :: b4 :: b5 :: b6 :: b7 :: rest =>
      tail8 (u64 (u64 (rol 27 (h ^^^ round 0 (le [b0, b1, b2, b3, b4, b5, b6, b7])) * prime1)
        + prime4)) rest
  | h, bs => (h, bs)

/-- Tail step of Sum64 for one 4-byte word, when at least four bytes remain. -/
def tail4 : Nat → List Nat → Nat × List Nat
  | h, b0 :: b1 :: b2 :: b3 :: rest =>
      (u64 (u64 (rol 23 (h ^^^ u64 (le [b0, b1, b2, b3] * prime1)) * prime2) + prime3), rest)
  | h, bs => (h, bs)

/-- Tail loop of Sum64 over the last single bytes. -/
def tail1 : Nat → List Nat → Nat
  | h, [] => h
  | h, b :: rest => tail1 (u64 (rol 11 (h ^^^ u64 (b * prime5)) * prime1)) rest

/-- Final mixing of Sum64. -/
def avalanche (h : Nat) : Nat :=
  let h := h ^^^ (h >>> 33)
  let h := u64 (h * prime2)
  let h := h ^^^ (h >>> 29)
  let h := u64 (h * prime3)
  h ^^^ (h >>> 32)

/-- Library method Sum64. -/
def Sum64 (d : Digest) : Nat :=
  let h0 :=
    if 32 ≤ d.total then
      mergeRound (mergeRound (mergeRound (mergeRound
        (u64 (rol 1 d.v1 + rol 7 d.v2 + rol 12 d.v3 + rol 18 d.v4)) d.v1) d.v2) d.v3) d.v4
    else u64 (d.v3 + prime5)
  let h1 := u64 (h0 + d.total)
  let r8 := tail8 h1 d.mem
  let r4 := tail4 r8.1 r8.2
  avalanche (tail1 r4.1 r4.2)

end xxhash

/-! ## Images -/

/-- An image.RGBA (alpha-premultiplied) with bounds (0,0)-(w,h) and stride
4*w: the canvas held by the gg drawing context. -/
structure RGBA where
  Pix : List Nat
  w : Nat
  h : Nat
deriving DecidableEq, Repr

/-- An image.NRGBA (non-premultiplied) with bounds (0,0)-(w,h) and stride 4*w. -/
structure NRGBA where
  Pix : List Nat
  w : Nat
  h : Nat
deriving DecidableEq, Repr

/-- image.NewRGBA: a zeroed image of the given size. -/
def NewRGBA (w h : Nat) : RGBA := { Pix := List.replicate (4 * w * h) 0, w := w, h := h }

/-- The four bytes of the pixel at (x, y) of a canvas. -/
def RGBA.pixel (im : RGBA) (x y : Nat) : List Nat :=
  (im.Pix.drop (y * (4 * im.w) + x * 4)).take 4

/-- Method NRGBA.At: the four bytes (colour) of the pixel at (x, y) of a
frame, and the zero colour outside the bounds of the frame. -/
def NRGBA.At (im : NRGBA) (x y : Nat) : List Nat :=
  if x < im.w ∧ y < im.h then (im.Pix.drop (y * (4 * im.w) + x * 4)).take 4 else [0, 0, 0, 0]

/-! ## imaging (third-party library github.com/disintegration/imaging) -/

namespace imaging

/-- Conversion of one premultiplied pixel to NRGBA, as the library scanner
does for an image.RGBA source: alpha 0 gives a zero pixel, alpha 255 copies,
any other alpha divides each channel (16-bit arithmetic, result cut to 8 bits). -/
def unpremultiply : List Nat → List Nat
  | [r, g, b, a] =>
      if a = 0 then [0, 0, 0, 0]
      else if a = 255 then [r, g, b, a]
      else [u8 ((r * 255 % 65536) / a), u8 ((g * 255 % 65536) / a),
            u8 ((b * 255 % 65536) / a), a]
  | p => p

/-- Library method scanner.scan for an image.RGBA source: the NRGBA bytes of
the rectangle (x1,y1)-(x2,y2), row by row. -/
def scan (im : RGBA) (x1 y1 x2 y2 : Nat) : List Nat :=
  ((List.range (y2 - y1)).map fun dy =>
    ((List.range (x2 - x1)).map fun dx => unpremultiply (im.pixel (x1 + dx) (y1 + dy))).flatten).flatten

/-- Library helper reverse: reverses the order of the 4-byte pixels of a row. -/
def reverse : List Nat → List Nat
  | b0 :: b1 :: b2 :: b3 :: rest => reverse rest ++ [b0, b1, b2, b3]
  | bs => bs

/-- Library function Clone. -/
def Clone (im : RGBA) : NRGBA :=
  { Pix := ((List.range im.h).map fun y => scan im 0 y im.w (y + 1)).flatten,
    w := im.w, h := im.h }

/-- Library function Rotate90 (counter-clockwise): the result is h wide and
w high, and its row dstY is column (w - dstY - 1) of the source. -/
def Rotate90 (im : RGBA) : NRGBA :=
  { Pix := ((List.range im.w).map fun dstY =>
      scan im (im.w - dstY - 1) 0 (im.w - dstY - 1 + 1) im.h).flatten,
    w := im.h, h := im.w }

/-- Library function Rotate180. -/
def Rotate180 (im : RGBA) : NRGBA :=
  { Pix := ((List.range im.h).map fun dstY =>
      reverse (scan im 0 (im.h - dstY - 1) im.w (im.h - dstY - 1 + 1))).flatten,
    w := im.w, h := im.h }

/-- Library function Rotate270: the result is h wide and w high, and its row
dstY is column dstY of the source, reversed. -/
def Rotate270 (im : RGBA) : NRGBA :=
  { Pix := ((List.range im.w).map fun dstY =>
      reverse (scan im dstY 0 (dstY + 1) im.h)).flatten,
    w := im.h, h := im.w }

end imaging

/-! ## The device surface and image/draw -/

/-- The device surface fb.raw, a draw.Image with bounds (0,0)-(w,h): the
colour stored at each position, and the number of draw.Draw calls it has
received (a counter kept for the statements about device writes). The
colour-model conversion of a concrete device is not modelled: a stored
colour is the four bytes that were written. -/
structure Device where
  w : Nat
  h : Nat
  px : Nat → Nat → List Nat
  writes : Nat

/-- Standard library draw.Draw(dst, dst.Bounds(), src, image.Point{}, draw.Src):
the rectangle is clipped to the bounds of both images, and inside it every
destination pixel is replaced by the source pixel at the same position
(operator Src: no blending with the old value). -/
def draw.Draw (dst : Device) (src : NRGBA) : Device :=
  { dst with
    px := fun x y =>
      if x < min dst.w src.w ∧ y < min dst.h src.h then src.At x y else dst.px x y
    writes := dst.writes + 1 }

/-! ## fb.go: session -/

/-- The fields of Framebuffer that change during a session: the device
surface raw, the canvas of the drawing context and lastBufferHash. -/
structure Buffers where
  raw : Device
  drawing : RGBA
  lastBufferHash : Nat

/-- A tick function receives the session; through the exported methods it
can change the canvas, the device and the stored hash, not the configuration. -/
abbrev TickFunction := Buffers → Buffers

/-- Struct Config. -/
structure Config where
  Rotate : Int := 0
  TickFunc : Option TickFunction := none
  TickTime : Int := 0

/-- Struct Framebuffer. The fields canvas (the opened device) and drawing
(the gg context) appear through what the package reads from them: the
device image raw and the canvas image of the context. -/
structure Framebuffer extends Buffers where
  config : Config
  tick : Option TickFunction

/-- Method Bounds: the size of the device image, width and height. -/
def Bounds (raw : Device) : Nat × Nat := (raw.w, raw.h)

/-- Errors of NewFramebuffer. -/
inductive OpenError where
  | couldNotOpen
  | couldNotInit
deriving DecidableEq, Repr

/-- NewFramebuffer. The two calls into the device library are inputs:
opened is the result of framebuffer.Open (false when it fails) and image is
the result of Canvas.Image (none when it fails). A nil configuration is none. -/
def NewFramebuffer (opened : Bool) (image : Option Device) (cfg : Option Config) :
    Except OpenError Framebuffer :=
  let cfg := match cfg with
    | none => ({} : Config)
    | some c => c
  if !opened then .error .couldNotOpen
  else match image with
    | none => .error .couldNotInit
    | some raw =>
      .ok { raw := raw, drawing := NewRGBA (Bounds raw).1 (Bounds raw).2, lastBufferHash := 0,
            config := cfg, tick := cfg.TickFunc }

/-- What the application does with the context returned by the method Draw
(or with Clear): the bytes of the canvas become pix, its size stays. -/
def paint (fb : Framebuffer) (pix : List Nat) : Framebuffer :=
  { fb with drawing := { fb.drawing with Pix := pix } }

/-- ForceDraw. -/
def ForceDraw (fb : Framebuffer) : Framebuffer := { fb with lastBufferHash := 0 }

/-! ## internal.go: the draw/flush step -/

/-- Function hashImage: every byte of Pix is written to a fresh digest. -/
def hashImage (im : NRGBA) : Nat :=
  xxhash.Sum64 (im.Pix.foldl xxhash.Write xxhash.New)

/-- The switch of writeBuffer on config.Rotate. The general rotation
imaging.Rotate (floating point, resampling) is the parameter rotate. -/
def transform (rotate : Int → RGBA → NRGBA) (angle : Int) (buffer : RGBA) : NRGBA :=
  if angle = 0 then imaging.Clone buffer
  else if angle = 90 then imaging.Rotate90 buffer
  else if angle = 180 then imaging.Rotate180 buffer
  else if angle = 270 then imaging.Rotate270 buffer
  else rotate angle buffer

/-- Method writeBuffer. -/
def writeBuffer (rotate : Int → RGBA → NRGBA) (fb : Framebuffer) : Framebuffer :=
  let transImage := transform rotate fb.config.Rotate fb.drawing
  let newHash := hashImage transImage
  if fb.lastBufferHash ≠ 0 ∧ newHash = fb.lastBufferHash then fb
  else { fb with lastBufferHash := newHash, raw := draw.Draw fb.raw transImage }

/-! ## The time package (standard library) -/

namespace time

def Millisecond : Int := 1000000
def Second : Int := 1000000000

/-- The zero time.Time (January 1 of year 1, UTC), the initial value of the
loop variable lastTick, in nanoseconds relative to the Unix epoch. -/
def zeroTime : Int := -62135596800 * Second

/-- Method Time.Sub: the difference t - u, saturated to the int64 range. -/
def Sub (t u : Int) : Int := max minDuration (min maxDuration (t - u))

/-- Function time.Since(t) evaluated when the clock reads now. -/
def Since (now t : Int) : Int := Sub now t

end time

/-! ## fb.go: the render loop -/

/-- The conversion time.Duration(1.0/float64(fps)). A float-to-integer
conversion discards the fraction. For fps of magnitude 2 or more the float
quotient has magnitude at most one half, for fps = 1 and fps = -1 it is
exactly 1 and -1: in every case the truncated rational quotient. For fps = 0
the quotient is +Inf, which int64 cannot represent; the conversion then
succeeds with a value that depends on the platform, the parameter inf. -/
def recipDuration (inf : Int) (fps : Int) : Int :=
  if fps = 0 then inf else Int.tdiv 1 fps

/-- The value frameDur of Start:
time.Duration(1.0/float64(fps)) * time.Second in int64 arithmetic. -/
def frameDur (inf : Int) (fps : Int) : Int := wrap64 (recipDuration inf fps * time.Second)

/-- The state of the goroutine started by Start: the session, the frame
interval and the loop variable lastTick. -/
structure Loop where
  fb : Framebuffer
  frameDur : Int
  lastTick : Int

/-- Method Start. It has no error result and no statement of it can panic
(the division is a floating-point division); the alternative Except.error
stands for a rejected call. The returned value is the running loop. -/
def Start (inf : Int) (fb : Framebuffer) (fps : Int) : Except String Loop :=
  .ok { fb := fb, frameDur := frameDur inf fps, lastTick := time.zeroTime }

/-- What one iteration of the loop does, in order. -/
inductive Event where
  | tick
  | draw
  | sleep (d : Int)
deriving DecidableEq, Repr

/-- The tick phase of an iteration: the session, lastTick and the events
after the if statement on time.Since(lastTick). The clock reads now when
time.Since is evaluated. -/
def tickPhase (l : Loop) (fStart now : Int) : Framebuffer × Int × List Event :=
  if time.Since now l.lastTick > l.fb.config.TickTime then
    match l.fb.config.TickFunc with
    | some f => ({ l.fb with toBuffers := f l.fb.toBuffers }, fStart, [Event.tick])
    | none => (l.fb, fStart, [])
  else (l.fb, l.lastTick, [])

/-- The duration passed to time.Sleep at the end of an iteration. -/
def sleepFor (frameDur dur : Int) : Int :=
  if dur < frameDur then wrap64 (frameDur - dur) else wrap64 (10 * time.Millisecond)

/-- The default branch of the select statement: one iteration of the loop.
The clock reads fStart at time.Now(), fStart + d1 when time.Since(lastTick)
is evaluated and fStart + d1 + d2 when time.Since(fStart) is evaluated (the
clock is monotonic). -/
def iteration (rotate : Int → RGBA → NRGBA) (l : Loop) (fStart : Int) (d1 d2 : Nat) :
    Loop × List Event :=
  let t := tickPhase l fStart (fStart + d1)
  let fb := writeBuffer rotate t.1
  let dur := time.Since (fStart + d1 + d2) fStart
  ({ l with fb := fb, lastTick := t.2.1 }, t.2.2 ++ [Event.draw, Event.sleep (sleepFor l.frameDur dur)])

/-- One pass through the for statement: the non-blocking receive on the
channel done (stop is true when a value is waiting) ends the goroutine,
otherwise the iteration runs. -/
def loopStep (rotate : Int → RGBA → NRGBA) (l : Loop) (stop : Bool) (fStart : Int)
    (d1 d2 : Nat) : Option (Loop × List Event) :=
  if stop then none else some (iteration rotate l fStart d1 d2)

/-- The for statement run over a list of clock readings (fStart, d1, d2),
one per iteration, while no stop value arrives: the final state and all
events. -/
def runLoop (rotate : Int → RGBA → NRGBA) (l : Loop) : List (Int × Nat × Nat) → Loop × List Event
  | [] => (l, [])
  | (fStart, d1, d2) :: rest =>
    let r := iteration rotate l fStart d1 d2
    let r' := runLoop rotate r.1 rest
    (r'.1, r.2 ++ r'.2)

/-! ## The fmt and strings packages (standard library) -/

namespace fmt

/-- Function isSpace of the scanner. -/
def isSpace (c : Char) : Bool :=
  let r := c.toNat
  (0x0009 ≤ r ∧ r ≤ 0x000d) ∨ r = 0x0020 ∨ r = 0x0085 ∨ r = 0x00a0 ∨ r = 0x1680 ∨
  (0x2000 ≤ r ∧ r ≤ 0x200a) ∨ r = 0x2028 ∨ r = 0x2029 ∨ r = 0x202f ∨ r = 0x205f ∨ r = 0x3000

/-- Method SkipSpace as Sscanf runs it (a newline is not a space): the input
left after the leading spaces; none is the scan error "unexpected newline". -/
def SkipSpace : List Char → Option (List Char)
  | [] => some []
  | c :: cs =>
    if c.toNat = 13 ∧ (cs.head?.map Char.toNat) = some 10 then SkipSpace cs
    else if c.toNat = 10 then none
    else if isSpace c then SkipSpace cs
    else some (c :: cs)

/-- The value of a rune of the scanner constant hexadecimalDigits
("0123456789aAbBcCdDeEfF"), as strconv.ParseUint reads it in base 16. -/
def hexVal (c : Char) : Option Nat :=
  let r := c.toNat
  if 48 ≤ r ∧ r ≤ 57 then some (r - 48)
  else if 97 ≤ r ∧ r ≤ 102 then some (r - 97 + 10)
  else if 65 ≤ r ∧ r ≤ 70 then some (r - 65 + 10)
  else none

/-- The loop of scanNumber: accepts hexadecimal digits while the width
allows, and gives their values and the input left. -/
def acceptDigits : Nat → List Char → List Nat × List Char
  | 0, cs => ([], cs)
  | _ + 1, [] => ([], [])
  | n + 1, c :: cs =>
    match hexVal c with
    | some v => let r := acceptDigits n cs; (v :: r.1, r.2)
    | none => ([], c :: cs)

/-- Method scanUint for the verb x and an 8-bit operand with the given
width: the number and the input left; none is a scan error (end of input,
"expected integer", or overflow of the operand). -/
def scanUint (wid : Nat) (inp : List Char) : Option (Nat × List Char) :=
  match acceptDigits wid inp with
  | ([], _) => none
  | (ds, rest) =>
    let i := ds.foldl (fun a d => 16 * a + d) 0
    if i < 256 then some (i, rest) else none

/-- One verb of the form %(wid)x processed by doScanf: spaces are skipped,
then the number is scanned. -/
def scanVerb (wid : Nat) (inp : List Char) : Option (Nat × List Char) :=
  (SkipSpace inp).bind (scanUint wid)

/-- Function Sscanf for a format of three verbs %(wid)x and three uint8
operands with current values c: the values of the operands afterwards.
Scanning stops at the first error and leaves the remaining operands as they
are; the error itself is the second result. -/
def Sscanf (wid : Nat) (s : List Char) (c : Nat × Nat × Nat) : (Nat × Nat × Nat) × Bool :=
  match scanVerb wid s with
  | none => (c, false)
  | some (r, s1) =>
    match scanVerb wid s1 with
    | none => ((r, c.2.1, c.2.2), false)
    | some (g, s2) =>
      match scanVerb wid s2 with
      | none => ((r, g, c.2.2), false)
      | some (b, _) => ((r, g, b), true)

end fmt

/-- A Go string (valid UTF-8) as its runes; len counts bytes. -/
def len (s : List Char) : Nat := (s.map Char.utf8Size).sum

/-- Function strings.TrimPrefix(s, "#"). -/
def TrimHash : List Char → List Char
  | [] => []
  | c :: cs => if c.toNat = 35 then cs else c :: cs

/-! ## util.go -/

/-- Struct color.RGBA. -/
structure Colour8 where
  R : Nat
  G : Nat
  B : Nat
  A : Nat
deriving DecidableEq, Repr

/-- Function Colour. -/
def Colour (r g b : Nat) : Colour8 := { R := r, G := g, B := b, A := 255 }

/-- Function HexColour; none is the panic "invalid length". The errors of
Sscanf are discarded, as in the source. -/
def HexColour (s : String) : Option Colour8 :=
  let s := TrimHash s.data
  if len s = 6 then
    let c := (fmt.Sscanf 2 s (0, 0, 0)).1
    some { R := c.1, G := c.2.1, B := c.2.2, A := 255 }
  else if len s = 3 then
    let c := (fmt.Sscanf 1 s (0, 0, 0)).1
    some { R := u8 (c.1 * 17), G := u8 (c.2.1 * 17), B := u8 (c.2.2 * 17), A := 255 }
  else none

end Framebuf

/-! ## Concrete sessions used in the evaluations below -/

namespace Framebuf

/-- A device of the given size that shows opaque white everywhere and has
not been written yet. -/
def whiteDevice (w h : Nat) : Device :=
  { w := w, h := h, px := fun _ _ => [255, 255, 255, 255], writes := 0 }

/-- Four opaque pixels, (38,118,112), (235,207,193), (169,99,0) and black,
whose sixteen bytes have the XXH64 value zero. -/
def zeroHashPix : List Nat :=
  [38, 118, 112, 255, 235, 207, 193, 255, 169, 99, 0, 255, 0, 0, 0, 255]

/-- The 63 bytes of "Call me Ishmael. Some years ago--never mind how long
precisely-". -/
def ishmael : List Nat :=
  [67, 97, 108, 108, 32, 109, 101, 32, 73, 115, 104, 109, 97, 101, 108, 46, 32, 83, 111, 109,
   101, 32, 121, 101, 97, 114, 115, 32, 97, 103, 111, 45, 45, 110, 101, 118, 101, 114, 32, 109,
   105, 110, 100, 32, 104, 111, 119, 32, 108, 111, 110, 103, 32, 112, 114, 101, 99, 105, 115,
   101, 108, 121, 45]

/-- Two opaque pixels, red and green. -/
def redGreenPix : List Nat := [255, 0, 0, 255, 0, 255, 0, 255]

/-- A general rotation standing in for imaging.Rotate where a concrete one
is needed; the sessions evaluated below use the angles 0 and 90 only. -/
def someRotate : Int → RGBA → NRGBA := fun _ im => imaging.Clone im

/-- The session NewFramebuffer returns for a white device of the given size
and the configuration cfg. -/
def freshSession (w h : Nat) (cfg : Config) : Framebuffer :=
  { raw := whiteDevice w h, drawing := NewRGBA w h, lastBufferHash := 0, config := cfg,
    tick := cfg.TickFunc }

end Framebuf

namespace Framebuf

/-- A well-formed colour specification after the leading # is removed:
exactly 3 or exactly 6 runes, all of them hexadecimal digits. -/
def isHexSpec (s : List Char) : Bool :=
  (s.length = 3 ∨ s.length = 6) ∧ s.all fun c => (fmt.hexVal c).isSome

end Framebuf

/-! # Theorems -/

namespace Framebuf

/-! ## Sanity checks of the library models -/

/-- The digest model reproduces the XXH64 values of the tests of the
library for the empty input and for "asdf". -/
theorem hashImage_test_vectors :
    hashImage ⟨[], 0, 0⟩ = 0xef46db3751d8e999 ∧
    hashImage ⟨[97, 115, 100, 102], 1, 1⟩ = 0x415872f599cea71e := by
  refine ⟨by decide, by decide⟩

set_option maxRecDepth 20000 in
/-- The digest model reproduces the XXH64 value of the tests of the library
for a text of 63 bytes, which fills one 32-byte block. -/
theorem hashImage_test_vector_block :
    hashImage ⟨ishmael, 0, 0⟩ = 0x02a2e85470d6fd96 := by
  decide

/-! ## The draw/flush step -/

theorem writeBuffer_of_sentinel (rotate : Int → RGBA → NRGBA) (fb : Framebuffer)
    (h : fb.lastBufferHash = 0) :
    writeBuffer rotate fb =
      { fb with lastBufferHash := hashImage (transform rotate fb.config.Rotate fb.drawing),
                raw := draw.Draw fb.raw (transform rotate fb.config.Rotate fb.drawing) } := by
  simp [writeBuffer, h]

theorem writeBuffer_skip (rotate : Int → RGBA → NRGBA) (fb : Framebuffer)
    (h0 : fb.lastBufferHash ≠ 0)
    (h : hashImage (transform rotate fb.config.Rotate fb.drawing) = fb.lastBufferHash) :
    writeBuffer rotate fb = fb := by
  simp [writeBuffer, h0, h]

theorem NewFramebuffer_ok {opened : Bool} {image : Option Device} {cfg : Option Config}
    {fb : Framebuffer} (h : NewFramebuffer opened image cfg = .ok fb) :
    fb.lastBufferHash = 0 ∧ fb.drawing = NewRGBA fb.raw.w fb.raw.h ∧ image = some fb.raw := by
  unfold NewFramebuffer at h
  cases opened <;> cases image <;> simp [Bounds] at h
  subst h
  simp

/-- C1 (as amended): from a fresh session whose transformed frame has a
non-zero fingerprint, two consecutive draw/flush steps with an unchanged
canvas do exactly one device write; the second step changes nothing. -/
theorem writeBuffer_twice_one_write (rotate : Int → RGBA → NRGBA) (opened : Bool)
    (image : Option Device) (cfg : Option Config) (fb : Framebuffer) (pix : List Nat)
    (hnew : NewFramebuffer opened image cfg = .ok fb)
    (hne : hashImage (transform rotate fb.config.Rotate (paint fb pix).drawing) ≠ 0) :
    (writeBuffer rotate (paint fb pix)).raw.writes = fb.raw.writes + 1 ∧
    writeBuffer rotate (writeBuffer rotate (paint fb pix)) = writeBuffer rotate (paint fb pix) ∧
    (writeBuffer rotate (writeBuffer rotate (paint fb pix))).raw.writes = fb.raw.writes + 1 := by
  have h0 : (paint fb pix).lastBufferHash = 0 := (NewFramebuffer_ok hnew).1
  have h1 := writeBuffer_of_sentinel rotate (paint fb pix) h0
  have h2 : writeBuffer rotate (writeBuffer rotate (paint fb pix))
      = writeBuffer rotate (paint fb pix) := by
    apply writeBuffer_skip
    · rw [h1]; exact hne
    · rw [h1]
  refine ⟨?_, h2, ?_⟩
  · rw [h1]; simp [draw.Draw, paint]
  · rw [h2, h1]; simp [draw.Draw, paint]

theorem writeBuffer_twice_one_write_witness :
    (writeBuffer someRotate (paint (freshSession 2 1 {}) redGreenPix)).raw.writes = 0 + 1 ∧
    writeBuffer someRotate (writeBuffer someRotate (paint (freshSession 2 1 {}) redGreenPix))
      = writeBuffer someRotate (paint (freshSession 2 1 {}) redGreenPix) ∧
    (writeBuffer someRotate
      (writeBuffer someRotate (paint (freshSession 2 1 {}) redGreenPix))).raw.writes = 0 + 1 :=
  writeBuffer_twice_one_write someRotate true (some (whiteDevice 2 1)) (some {})
    (freshSession 2 1 {}) redGreenPix rfl (by decide)

/-- C1 (as stated) fails: on a fresh 2x2 session with rotation 0 whose canvas
holds the four opaque pixels of zeroHashPix, the fingerprint of the frame is
zero, the first step writes, and the second step of the unchanged canvas
writes again. -/
theorem writeBuffer_twice_two_writes :
    NewFramebuffer true (some (whiteDevice 2 2)) none = .ok (freshSession 2 2 {}) ∧
    hashImage (transform someRotate 0 (paint (freshSession 2 2 {}) zeroHashPix).drawing) = 0 ∧
    (writeBuffer someRotate (paint (freshSession 2 2 {}) zeroHashPix)).raw.writes = 1 ∧
    (writeBuffer someRotate
      (writeBuffer someRotate (paint (freshSession 2 2 {}) zeroHashPix))).raw.writes = 2 := by
  refine ⟨rfl, by decide, by decide, by decide⟩

end Framebuf

namespace Framebuf

/-- C3: after ForceDraw the next draw/flush step writes the transformed frame
to the device, whatever the session state, the rotation and the canvas, and
so also when the frame equals the last frame written. -/
theorem forceDraw_then_writeBuffer_writes (rotate : Int → RGBA → NRGBA) (fb : Framebuffer) :
    (ForceDraw fb).lastBufferHash = 0 ∧
    (writeBuffer rotate (ForceDraw fb)).raw
      = draw.Draw fb.raw (transform rotate fb.config.Rotate fb.drawing) ∧
    (writeBuffer rotate (ForceDraw fb)).raw.writes = fb.raw.writes + 1 := by
  have h := writeBuffer_of_sentinel rotate (ForceDraw fb) rfl
  refine ⟨rfl, ?_, ?_⟩
  · rw [h]; rfl
  · rw [h]; rfl

/-- C4: the session NewFramebuffer returns stores the fingerprint zero, and
its first draw/flush step writes the transformed frame to the device for
every rotation and every canvas content. -/
theorem first_writeBuffer_writes (rotate : Int → RGBA → NRGBA) (opened : Bool)
    (image : Option Device) (cfg : Option Config) (fb : Framebuffer) (pix : List Nat)
    (hnew : NewFramebuffer opened image cfg = .ok fb) :
    fb.lastBufferHash = 0 ∧
    (writeBuffer rotate (paint fb pix)).raw
      = draw.Draw fb.raw (transform rotate fb.config.Rotate (paint fb pix).drawing) ∧
    (writeBuffer rotate (paint fb pix)).raw.writes = fb.raw.writes + 1 := by
  have h0 : (paint fb pix).lastBufferHash = 0 := (NewFramebuffer_ok hnew).1
  have h := writeBuffer_of_sentinel rotate (paint fb pix) h0
  refine ⟨(NewFramebuffer_ok hnew).1, ?_, ?_⟩
  · rw [h]; rfl
  · rw [h]; rfl

theorem first_writeBuffer_writes_witness :
    (freshSession 2 2 { Rotate := 180 }).lastBufferHash = 0 ∧
    (writeBuffer someRotate (paint (freshSession 2 2 { Rotate := 180 }) zeroHashPix)).raw
      = draw.Draw (freshSession 2 2 { Rotate := 180 }).raw
          (transform someRotate (freshSession 2 2 { Rotate := 180 }).config.Rotate
            (paint (freshSession 2 2 { Rotate := 180 }) zeroHashPix).drawing) ∧
    (writeBuffer someRotate (paint (freshSession 2 2 { Rotate := 180 }) zeroHashPix)).raw.writes
      = (freshSession 2 2 { Rotate := 180 }).raw.writes + 1 :=
  first_writeBuffer_writes someRotate true (some (whiteDevice 2 2)) (some { Rotate := 180 })
    (freshSession 2 2 { Rotate := 180 }) zeroHashPix rfl

theorem transform_size (rotate : Int → RGBA → NRGBA) (angle : Int) (buffer : RGBA) :
    ((angle = 0 ∨ angle = 180) →
      (transform rotate angle buffer).w = buffer.w ∧ (transform rotate angle buffer).h = buffer.h) ∧
    ((angle = 90 ∨ angle = 270) →
      (transform rotate angle buffer).w = buffer.h ∧ (transform rotate angle buffer).h = buffer.w) := by
  constructor
  · rintro (h | h) <;> subst h <;> simp [transform, imaging.Clone, imaging.Rotate180]
  · rintro (h | h) <;> subst h <;> simp [transform, imaging.Rotate90, imaging.Rotate270]

/-- C5 (as amended): a draw/flush step that does not skip stores the new
fingerprint and replaces, without blending, every device pixel that lies
inside the transformed frame by the pixel of the frame at the same position;
every other device pixel keeps its old value. For the angles 0 and 180, and
for 90 and 270 on a square device, the frame has the size of the device and
every device pixel is replaced; for 90 and 270 the frame is as wide as the
device is high and as high as the device is wide. -/
theorem writeBuffer_overwrites_common_region (rotate : Int → RGBA → NRGBA) (fb : Framebuffer)
    (hdim : fb.drawing.w = fb.raw.w ∧ fb.drawing.h = fb.raw.h)
    (hrot : fb.config.Rotate = 0 ∨ fb.config.Rotate = 90 ∨ fb.config.Rotate = 180 ∨
      fb.config.Rotate = 270)
    (hwrite : ¬ (fb.lastBufferHash ≠ 0 ∧
      hashImage (transform rotate fb.config.Rotate fb.drawing) = fb.lastBufferHash)) :
    (writeBuffer rotate fb).lastBufferHash
      = hashImage (transform rotate fb.config.Rotate fb.drawing) ∧
    (writeBuffer rotate fb).raw.writes = fb.raw.writes + 1 ∧
    (∀ x y, x < fb.raw.w → y < fb.raw.h →
      x < (transform rotate fb.config.Rotate fb.drawing).w →
      y < (transform rotate fb.config.Rotate fb.drawing).h →
      (writeBuffer rotate fb).raw.px x y
        = (transform rotate fb.config.Rotate fb.drawing).At x y) ∧
    (∀ x y, ¬ (x < (transform rotate fb.config.Rotate fb.drawing).w ∧
        y < (transform rotate fb.config.Rotate fb.drawing).h) →
      (writeBuffer rotate fb).raw.px x y = fb.raw.px x y) ∧
    ((fb.config.Rotate = 0 ∨ fb.config.Rotate = 180 ∨ fb.raw.w = fb.raw.h) →
      ∀ x y, x < fb.raw.w → y < fb.raw.h →
        (writeBuffer rotate fb).raw.px x y
          = (transform rotate fb.config.Rotate fb.drawing).At x y) ∧
    ((fb.config.Rotate = 90 ∨ fb.config.Rotate = 270) →
      (transform rotate fb.config.Rotate fb.drawing).w = fb.raw.h ∧
      (transform rotate fb.config.Rotate fb.drawing).h = fb.raw.w) := by
  have hw : writeBuffer rotate fb =
      { fb with lastBufferHash := hashImage (transform rotate fb.config.Rotate fb.drawing),
                raw := draw.Draw fb.raw (transform rotate fb.config.Rotate fb.drawing) } := by
    unfold writeBuffer
    simp only []
    rw [if_neg hwrite]
  have hs := transform_size rotate fb.config.Rotate fb.drawing
  have hin : ∀ x y, x < fb.raw.w → y < fb.raw.h →
      x < (transform rotate fb.config.Rotate fb.drawing).w →
      y < (transform rotate fb.config.Rotate fb.drawing).h →
      (writeBuffer rotate fb).raw.px x y
        = (transform rotate fb.config.Rotate fb.drawing).At x y := by
    intro x y hx hy hx' hy'
    rw [hw]
    simp [draw.Draw, hx, hy, hx', hy']
  refine ⟨by rw [hw], by rw [hw]; rfl, hin, ?_, ?_, ?_⟩
  · intro x y hout
    rw [hw]
    have : ¬ (x < min fb.raw.w (transform rotate fb.config.Rotate fb.drawing).w ∧
        y < min fb.raw.h (transform rotate fb.config.Rotate fb.drawing).h) := by
      intro hc
      exact hout ⟨lt_of_lt_of_le hc.1 (min_le_right _ _), lt_of_lt_of_le hc.2 (min_le_right _ _)⟩
    simp only [draw.Draw]
    rw [if_neg this]
  · intro hcase x y hx hy
    have hsz : (transform rotate fb.config.Rotate fb.drawing).w = fb.raw.w ∧
        (transform rotate fb.config.Rotate fb.drawing).h = fb.raw.h := by
      rcases hcase with h | h | h
      · have := hs.1 (Or.inl h); rw [hdim.1, hdim.2] at this; exact this
      · have := hs.1 (Or.inr h); rw [hdim.1, hdim.2] at this; exact this
      · rcases hrot with r | r | r | r
        · have := hs.1 (Or.inl r); rw [hdim.1, hdim.2] at this; exact this
        · have := hs.2 (Or.inl r); rw [hdim.1, hdim.2] at this
          exact ⟨this.1.trans h.symm, this.2.trans h⟩
        · have := hs.1 (Or.inr r); rw [hdim.1, hdim.2] at this; exact this
        · have := hs.2 (Or.inr r); rw [hdim.1, hdim.2] at this
          exact ⟨this.1.trans h.symm, this.2.trans h⟩
    exact hin x y hx hy (hsz.1 ▸ hx) (hsz.2 ▸ hy)
  · intro h
    have := hs.2 h
    rw [hdim.1, hdim.2] at this
    exact this

theorem writeBuffer_overwrites_common_region_witness :
    (writeBuffer someRotate (paint (freshSession 2 1 { Rotate := 180 }) redGreenPix)).lastBufferHash
      = hashImage (transform someRotate 180
          (paint (freshSession 2 1 { Rotate := 180 }) redGreenPix).drawing) ∧
    (writeBuffer someRotate (paint (freshSession 2 1 { Rotate := 180 }) redGreenPix)).raw.px 0 0
      = [0, 255, 0, 255] ∧
    (writeBuffer someRotate (paint (freshSession 2 1 { Rotate := 180 }) redGreenPix)).raw.px 1 0
      = [255, 0, 0, 255] := by
  have h := writeBuffer_overwrites_common_region someRotate
    (paint (freshSession 2 1 { Rotate := 180 }) redGreenPix) ⟨rfl, rfl⟩
    (Or.inr (Or.inr (Or.inl rfl))) (by decide)
  refine ⟨h.1, ?_, ?_⟩
  · rw [h.2.2.2.2.1 (Or.inr (Or.inl rfl)) 0 0 (by decide) (by decide)]; decide
  · rw [h.2.2.2.2.1 (Or.inr (Or.inl rfl)) 1 0 (by decide) (by decide)]; decide

/-- C5 (as stated) fails: on a fresh device 2 wide and 1 high with rotation
90 and a canvas holding a red and a green pixel, the step does not skip, the
frame is 1 wide and 2 high, and after the write the device pixel (1,0) still
has its old value (white), which is not the value of the frame at (1,0);
the frame pixel (0,1), red, reaches no device pixel. -/
theorem writeBuffer_leaves_pixel_unwritten :
    (paint (freshSession 2 1 { Rotate := 90 }) redGreenPix).config.Rotate = 90 ∧
    (writeBuffer someRotate (paint (freshSession 2 1 { Rotate := 90 }) redGreenPix)).raw.writes
      = 1 ∧
    (transform someRotate 90 (paint (freshSession 2 1 { Rotate := 90 }) redGreenPix).drawing).w
      = 1 ∧
    (transform someRotate 90 (paint (freshSession 2 1 { Rotate := 90 }) redGreenPix).drawing).h
      = 2 ∧
    (transform someRotate 90 (paint (freshSession 2 1 { Rotate := 90 }) redGreenPix).drawing).At 0 1
      = [255, 0, 0, 255] ∧
    (writeBuffer someRotate (paint (freshSession 2 1 { Rotate := 90 }) redGreenPix)).raw.px 0 0
      = [0, 255, 0, 255] ∧
    (writeBuffer someRotate (paint (freshSession 2 1 { Rotate := 90 }) redGreenPix)).raw.px 1 0
      = [255, 255, 255, 255] ∧
    (writeBuffer someRotate (paint (freshSession 2 1 { Rotate := 90 }) redGreenPix)).raw.px 1 0
      ≠ (transform someRotate 90
          (paint (freshSession 2 1 { Rotate := 90 }) redGreenPix).drawing).At 1 0 := by
  refine ⟨rfl, by decide, by decide, by decide, by decide, by decide, by decide, by decide⟩

end Framebuf

namespace Framebuf

/-! ## The render loop -/

theorem wrap64_range (i : Int) : -(2 ^ 63) ≤ wrap64 i ∧ wrap64 i < 2 ^ 63 := by
  unfold wrap64
  omega

theorem wrap64_id (i : Int) (h1 : -(2 ^ 63) ≤ i) (h2 : i < 2 ^ 63) : wrap64 i = i := by
  unfold wrap64
  omega

theorem Since_nonneg (fStart : Int) (d : Nat) :
    0 ≤ time.Since (fStart + d) fStart ∧ time.Since (fStart + d) fStart < 2 ^ 63 := by
  unfold time.Since time.Sub maxDuration minDuration
  omega

theorem frameDur_of_two_le (inf fps : Int) (h : 2 ≤ fps) : frameDur inf fps = 0 := by
  have h0 : fps ≠ 0 := by omega
  have : Int.tdiv 1 fps = 0 := Int.tdiv_eq_zero_of_lt (by decide) (by omega)
  simp [frameDur, recipDuration, h0, this, wrap64]

theorem frameDur_of_le_neg_two (inf fps : Int) (h : fps ≤ -2) : frameDur inf fps = 0 := by
  have h0 : fps ≠ 0 := by omega
  have h1 : Int.tdiv 1 (-fps) = 0 := Int.tdiv_eq_zero_of_lt (by decide) (by omega)
  have : Int.tdiv 1 fps = 0 := by
    have h2 := Int.tdiv_neg 1 (-fps)
    rw [neg_neg, h1] at h2
    simpa using h2
  simp [frameDur, recipDuration, h0, this, wrap64]

theorem frameDur_one (inf : Int) : frameDur inf 1 = time.Second := by
  simp [frameDur, recipDuration, wrap64, time.Second]

theorem frameDur_neg_one (inf : Int) : frameDur inf (-1) = -time.Second := by
  simp [frameDur, recipDuration, wrap64, time.Second]

theorem iteration_frameDur (rotate : Int → RGBA → NRGBA) (l : Loop) (fStart : Int)
    (d1 d2 : Nat) : (iteration rotate l fStart d1 d2).1.frameDur = l.frameDur := rfl

/-- Every state the loop reaches from the state Start returns carries the
frame interval Start computed. -/
theorem runLoop_frameDur (rotate : Int → RGBA → NRGBA) (inf : Int) (fb : Framebuffer)
    (fps : Int) (l0 : Loop) (h : Start inf fb fps = .ok l0)
    (steps : List (Int × Nat × Nat)) :
    (runLoop rotate l0 steps).1.frameDur = frameDur inf fps := by
  have h0 : l0.frameDur = frameDur inf fps := by
    simp [Start] at h
    rw [← h]
  clear h
  induction steps generalizing l0 with
  | nil => exact h0
  | cons st rest ih =>
    obtain ⟨fStart, d1, d2⟩ := st
    exact ih (iteration rotate l0 fStart d1 d2).1 h0

/-- C2: at 30 frames per second the frame interval Start computes is zero, a
third of a tenth of a second (33333333 ns) short of 1/30 s, and an iteration
that costs no time is followed by the 10 ms guard sleep. -/
theorem Start_frameDur_at_30 (inf : Int) (fb : Framebuffer) :
    Start inf fb 30 = .ok { fb := fb, frameDur := 0, lastTick := time.zeroTime } ∧
    frameDur inf 30 = 0 ∧
    time.Second / 30 - frameDur inf 30 = 33333333 ∧
    sleepFor (frameDur inf 30) 0 = 10 * time.Millisecond := by
  have h : frameDur inf 30 = 0 := frameDur_of_two_le inf 30 (by decide)
  refine ⟨?_, h, ?_, ?_⟩
  · simp [Start, h]
  · rw [h]; decide
  · rw [h]; decide

/-- C6 (as amended): Start performs no validation. For every fps that is zero
or negative it reports no error and returns the running loop; the frame
interval is 0 for fps of -2 or less and minus one second for fps = -1, and
for every negative fps each iteration ends with the 10 ms guard sleep. -/
theorem Start_accepts_nonpositive (inf : Int) (fb : Framebuffer) (fps : Int) (h : fps ≤ 0) :
    Start inf fb fps
      = .ok { fb := fb, frameDur := frameDur inf fps, lastTick := time.zeroTime } ∧
    (∀ e, Start inf fb fps ≠ .error e) ∧
    (fps ≤ -2 → frameDur inf fps = 0) ∧
    (fps = -1 → frameDur inf fps = -time.Second) ∧
    (fps < 0 → ∀ dur : Int, 0 ≤ dur → sleepFor (frameDur inf fps) dur = 10 * time.Millisecond) := by
  refine ⟨rfl, ?_, frameDur_of_le_neg_two inf fps, ?_, ?_⟩
  · intro e he
    simp [Start] at he
  · intro h1; subst h1; exact frameDur_neg_one inf
  · intro hneg dur hdur
    have hle : frameDur inf fps ≤ 0 := by
      by_cases h2 : fps ≤ -2
      · rw [frameDur_of_le_neg_two inf fps h2]
      · have : fps = -1 := by omega
        subst this
        rw [frameDur_neg_one]; decide
    unfold sleepFor
    rw [if_neg (by omega)]
    decide

theorem Start_accepts_nonpositive_witness :
    Start 0 (freshSession 1 1 {}) (-5)
      = .ok { fb := freshSession 1 1 {}, frameDur := frameDur 0 (-5),
              lastTick := time.zeroTime } ∧
    frameDur 0 (-5) = 0 ∧
    sleepFor (frameDur 0 (-5)) 7 = 10 * time.Millisecond :=
  ⟨(Start_accepts_nonpositive 0 (freshSession 1 1 {}) (-5) (by decide)).1,
   (Start_accepts_nonpositive 0 (freshSession 1 1 {}) (-5) (by decide)).2.2.1 (by decide),
   (Start_accepts_nonpositive 0 (freshSession 1 1 {}) (-5) (by decide)).2.2.2.2 (by decide) 7
     (by decide)⟩

/-- C6 (as stated) fails: with fps = 0 (on a platform whose conversion of
+Inf gives the smallest int64) and with fps = -1 Start returns the running
loop, with a frame interval of 0 and of minus one second, and no error. -/
theorem Start_zero_fps_runs :
    Start minDuration (freshSession 1 1 {}) 0
      = .ok { fb := freshSession 1 1 {}, frameDur := 0, lastTick := time.zeroTime } ∧
    Start minDuration (freshSession 1 1 {}) (-1)
      = .ok { fb := freshSession 1 1 {}, frameDur := -1000000000, lastTick := time.zeroTime } ∧
    ¬ (∃ e, Start minDuration (freshSession 1 1 {}) 0 = .error e) := by
  refine ⟨?_, ?_, ?_⟩
  · have : frameDur minDuration 0 = 0 := by decide
    simp [Start, this]
  · have : frameDur minDuration (-1) = -1000000000 := by decide
    simp [Start, this]
  · rintro ⟨e, he⟩
    simp [Start] at he

/-- C7: in an iteration the tick callback runs exactly when a callback is
configured and the time since the last recorded tick exceeds TickTime; when
it runs, lastTick becomes the start time of the iteration and the session
the callback returns is the one drawn; the draw/flush step runs in every
iteration, on the unchanged session when no tick happened. -/
theorem iteration_tick_iff (rotate : Int → RGBA → NRGBA) (l : Loop) (fStart : Int)
    (d1 d2 : Nat) :
    (Event.tick ∈ (iteration rotate l fStart d1 d2).2 ↔
      (l.fb.config.TickFunc ≠ none ∧
        time.Since (fStart + d1) l.lastTick > l.fb.config.TickTime)) ∧
    (Event.tick ∈ (iteration rotate l fStart d1 d2).2 →
      (iteration rotate l fStart d1 d2).1.lastTick = fStart ∧
      ∃ f, l.fb.config.TickFunc = some f ∧
        (iteration rotate l fStart d1 d2).1.fb
          = writeBuffer rotate { l.fb with toBuffers := f l.fb.toBuffers }) ∧
    (Event.tick ∉ (iteration rotate l fStart d1 d2).2 →
      (iteration rotate l fStart d1 d2).1.fb = writeBuffer rotate l.fb) ∧
    Event.draw ∈ (iteration rotate l fStart d1 d2).2 := by
  unfold iteration tickPhase
  by_cases hgt : time.Since (fStart + d1) l.lastTick > l.fb.config.TickTime
  · cases hf : l.fb.config.TickFunc with
    | none => simp [hgt, hf]
    | some f => simp [hgt, hf]
  · simp [hgt]

/-- C8: at the end of an iteration of a loop whose frame interval is the one
Start computed, the loop sleeps once: for frameDur - elapsed when the elapsed
time is below the frame interval, and for 10 ms otherwise; the sleep is
always positive, and at least 10 ms when the elapsed time reaches the frame
interval. -/
theorem iteration_sleep (rotate : Int → RGBA → NRGBA) (inf fps : Int) (l : Loop)
    (fStart : Int) (d1 d2 : Nat) (h : l.frameDur = frameDur inf fps) :
    ∃ pre s, (iteration rotate l fStart d1 d2).2 = pre ++ [Event.sleep s] ∧
      (∀ s', Event.sleep s' ∉ pre) ∧
      (time.Since (fStart + d1 + d2) fStart < l.frameDur →
        s = l.frameDur - time.Since (fStart + d1 + d2) fStart) ∧
      (l.frameDur ≤ time.Since (fStart + d1 + d2) fStart → s = 10 * time.Millisecond) ∧
      0 < s ∧
      (l.frameDur ≤ time.Since (fStart + d1 + d2) fStart → 10 * time.Millisecond ≤ s) := by
  have hd := Since_nonneg fStart (d1 + d2)
  have hcast : fStart + ((d1 + d2 : Nat) : Int) = fStart + d1 + d2 := by push_cast; ring
  rw [hcast] at hd
  have hr : -(2 ^ 63) ≤ l.frameDur ∧ l.frameDur < 2 ^ 63 := by
    rw [h]; exact wrap64_range _
  have hg : wrap64 (10 * time.Millisecond) = 10 * time.Millisecond := by decide
  have hpos : (0 : Int) < 10 * time.Millisecond := by decide
  refine ⟨(tickPhase l fStart (fStart + d1)).2.2 ++ [Event.draw],
    sleepFor l.frameDur (time.Since (fStart + d1 + d2) fStart), ?_, ?_, ?_, ?_, ?_, ?_⟩
  · simp [iteration]
  · intro s' hs'
    unfold tickPhase at hs'
    by_cases hgt : time.Since (fStart + d1) l.lastTick > l.fb.config.TickTime
    · cases hf : l.fb.config.TickFunc <;> simp [hgt, hf] at hs'
    · simp [hgt] at hs'
  · intro hlt
    unfold sleepFor
    rw [if_pos hlt]
    exact wrap64_id _ (by omega) (by omega)
  · intro hge
    unfold sleepFor
    rw [if_neg (by omega), hg]
  · unfold sleepFor
    by_cases hlt : time.Since (fStart + d1 + d2) fStart < l.frameDur
    · rw [if_pos hlt, wrap64_id _ (by omega) (by omega)]; omega
    · rw [if_neg hlt, hg]; exact hpos
  · intro hge
    unfold sleepFor
    rw [if_neg (by omega), hg]

theorem iteration_sleep_witness :
    ({ fb := freshSession 1 1 {}, frameDur := frameDur 0 1, lastTick := time.zeroTime } : Loop).frameDur
      = frameDur 0 1 ∧
    ∃ pre s, (iteration someRotate
        { fb := freshSession 1 1 {}, frameDur := frameDur 0 1, lastTick := time.zeroTime }
        0 1000 2000).2 = pre ++ [Event.sleep s] ∧
      (∀ s', Event.sleep s' ∉ pre) ∧
      (time.Since (0 + (1000 : Nat) + (2000 : Nat)) 0 < frameDur 0 1 →
        s = frameDur 0 1 - time.Since (0 + (1000 : Nat) + (2000 : Nat)) 0) ∧
      (frameDur 0 1 ≤ time.Since (0 + (1000 : Nat) + (2000 : Nat)) 0 →
        s = 10 * time.Millisecond) ∧
      0 < s ∧
      (frameDur 0 1 ≤ time.Since (0 + (1000 : Nat) + (2000 : Nat)) 0 →
        10 * time.Millisecond ≤ s) :=
  ⟨rfl, iteration_sleep someRotate 0 1
    { fb := freshSession 1 1 {}, frameDur := frameDur 0 1, lastTick := time.zeroTime }
    0 1000 2000 rfl⟩

end Framebuf

namespace Framebuf

/-! ## HexColour -/

/-- The digit values of the model agree with the table of hexadecimal digits
in both cases. -/
theorem hexVal_table :
    "0123456789abcdef".data.map fmt.hexVal = (List.range 16).map some ∧
    "ABCDEF".data.map fmt.hexVal = [some 10, some 11, some 12, some 13, some 14, some 15] ∧
    "gG#xz /:@".data.map fmt.hexVal = List.replicate 9 none := by
  decide

theorem hexVal_some {c : Char} {v : Nat} (h : fmt.hexVal c = some v) :
    v < 16 ∧ 48 ≤ c.toNat ∧ c.toNat ≤ 102 := by
  unfold fmt.hexVal at h
  simp only [] at h
  split_ifs at h <;> simp at h <;> omega

theorem utf8Size_of_hex {c : Char} {v : Nat} (h : fmt.hexVal c = some v) : c.utf8Size = 1 := by
  have hr := hexVal_some h
  have : c.val ≤ 127 := by
    rw [UInt32.le_def]
    show c.val.toNat ≤ 127
    have : c.toNat = c.val.toNat := rfl
    omega
  simp [Char.utf8Size, this]

theorem SkipSpace_of_hex {c : Char} {v : Nat} (h : fmt.hexVal c = some v) (cs : List Char) :
    fmt.SkipSpace (c :: cs) = some (c :: cs) := by
  have hr := hexVal_some h
  have h1 : c.toNat ≠ 13 := by omega
  have h2 : c.toNat ≠ 10 := by omega
  have h3 : fmt.isSpace c = false := by
    simp [fmt.isSpace]
    omega
  simp [fmt.SkipSpace, h1, h2, h3]

theorem scanVerb_one {c : Char} {v : Nat} (h : fmt.hexVal c = some v) (cs : List Char) :
    fmt.scanVerb 1 (c :: cs) = some (v, cs) := by
  have hr := hexVal_some h
  simp [fmt.scanVerb, SkipSpace_of_hex h, fmt.scanUint, fmt.acceptDigits, h]
  omega

theorem scanVerb_two {c d : Char} {v w : Nat} (hc : fmt.hexVal c = some v)
    (hd : fmt.hexVal d = some w) (cs : List Char) :
    fmt.scanVerb 2 (c :: d :: cs) = some (16 * v + w, cs) := by
  have hr := hexVal_some hc
  have hr' := hexVal_some hd
  simp [fmt.scanVerb, SkipSpace_of_hex hc, fmt.scanUint, fmt.acceptDigits, hc, hd]
  omega

theorem TrimHash_of_hex {c : Char} {v : Nat} (h : fmt.hexVal c = some v) (cs : List Char) :
    TrimHash (c :: cs) = c :: cs := by
  have hr := hexVal_some h
  have : c.toNat ≠ 35 := by omega
  simp [TrimHash, this]

theorem TrimHash_hash (cs : List Char) : TrimHash ('#' :: cs) = cs := by
  simp [TrimHash]

end Framebuf

namespace Framebuf

/-- C10: for hexadecimal digits r, g, b of either case, with values vr, vg,
vb, HexColour gives the same colour for "#rgb", "rgb", "#rrggbb" and
"rrggbb": each channel is 17 times the value of its digit, which fits in
8 bits, and alpha is 255. -/
theorem HexColour_shorthand (r g b : Char) (vr vg vb : Nat)
    (hr : fmt.hexVal r = some vr) (hg : fmt.hexVal g = some vg) (hb : fmt.hexVal b = some vb) :
    HexColour (String.mk ['#', r, g, b])
      = some { R := 17 * vr, G := 17 * vg, B := 17 * vb, A := 255 } ∧
    HexColour (String.mk [r, g, b])
      = some { R := 17 * vr, G := 17 * vg, B := 17 * vb, A := 255 } ∧
    HexColour (String.mk ['#', r, r, g, g, b, b])
      = some { R := 17 * vr, G := 17 * vg, B := 17 * vb, A := 255 } ∧
    HexColour (String.mk [r, r, g, g, b, b])
      = some { R := 17 * vr, G := 17 * vg, B := 17 * vb, A := 255 } ∧
    17 * vr ≤ 255 ∧ 17 * vg ≤ 255 ∧ 17 * vb ≤ 255 := by
  have br := (hexVal_some hr).1
  have bg := (hexVal_some hg).1
  have bb := (hexVal_some hb).1
  have l3 : len [r, g, b] = 3 := by
    simp [len, utf8Size_of_hex hr, utf8Size_of_hex hg, utf8Size_of_hex hb]
  have l6 : len [r, r, g, g, b, b] = 6 := by
    simp [len, utf8Size_of_hex hr, utf8Size_of_hex hg, utf8Size_of_hex hb]
  have s3 : fmt.Sscanf 1 [r, g, b] (0, 0, 0) = ((vr, vg, vb), true) := by
    simp [fmt.Sscanf, scanVerb_one hr, scanVerb_one hg, scanVerb_one hb]
  have s6 : fmt.Sscanf 2 [r, r, g, g, b, b] (0, 0, 0)
      = ((16 * vr + vr, 16 * vg + vg, 16 * vb + vb), true) := by
    simp [fmt.Sscanf, scanVerb_two hr hr, scanVerb_two hg hg, scanVerb_two hb hb]
  have s3' : fmt.Sscanf 1 [r, g, b] 0 = ((vr, vg, vb), true) := s3
  have s6' : fmt.Sscanf 2 [r, r, g, g, b, b] 0
      = ((16 * vr + vr, 16 * vg + vg, 16 * vb + vb), true) := s6
  have e3 : ∀ v, v < 16 → u8 (v * 17) = 17 * v := by
    intro v hv; unfold u8; omega
  have e6 : ∀ v : Nat, 16 * v + v = 17 * v := by intro v; omega
  have short : HexColour (String.mk [r, g, b])
      = some { R := 17 * vr, G := 17 * vg, B := 17 * vb, A := 255 } := by
    simp [HexColour, TrimHash_of_hex hr, l3, s3', e3 vr br, e3 vg bg, e3 vb bb]
  have long : HexColour (String.mk [r, r, g, g, b, b])
      = some { R := 17 * vr, G := 17 * vg, B := 17 * vb, A := 255 } := by
    simp [HexColour, TrimHash_of_hex hr, l6, s6', e6]
  refine ⟨?_, short, ?_, long, by omega, by omega, by omega⟩
  · simpa [HexColour, TrimHash_hash, TrimHash_of_hex hr] using short
  · simpa [HexColour, TrimHash_hash, TrimHash_of_hex hr] using long

theorem HexColour_shorthand_witness :
    HexColour (String.mk ['#', 'f', 'A', '3'])
      = some { R := 17 * 15, G := 17 * 10, B := 17 * 3, A := 255 } ∧
    HexColour (String.mk ['f', 'A', '3'])
      = some { R := 17 * 15, G := 17 * 10, B := 17 * 3, A := 255 } ∧
    HexColour (String.mk ['#', 'f', 'f', 'A', 'A', '3', '3'])
      = some { R := 17 * 15, G := 17 * 10, B := 17 * 3, A := 255 } ∧
    HexColour (String.mk ['f', 'f', 'A', 'A', '3', '3'])
      = some { R := 17 * 15, G := 17 * 10, B := 17 * 3, A := 255 } ∧
    17 * 15 ≤ 255 ∧ 17 * 10 ≤ 255 ∧ 17 * 3 ≤ 255 :=
  HexColour_shorthand 'f' 'A' '3' 15 10 3 (by decide) (by decide) (by decide)

/-- C9 (as amended): HexColour panics exactly when the byte length of the
input, after one leading # is removed, is neither 3 nor 6; every input of
length 3 or 6, hexadecimal or not, gives a colour with alpha 255. -/
theorem HexColour_panics_iff_length (s : String) :
    (HexColour s = none ↔ (len (TrimHash s.data) ≠ 3 ∧ len (TrimHash s.data) ≠ 6)) ∧
    ((len (TrimHash s.data) = 3 ∨ len (TrimHash s.data) = 6) →
      ∃ c, HexColour s = some c ∧ c.A = 255) := by
  unfold HexColour
  by_cases h6 : len (TrimHash s.data) = 6
  · simp [h6]
  · by_cases h3 : len (TrimHash s.data) = 3
    · simp [h3]
    · simp [h3, h6]

/-- C9 (as stated) fails: "zzz" and "#12345g" are not 3 or 6 hexadecimal
digits after the # is removed, and HexColour returns a colour for both:
opaque black for "zzz", and (18, 52, 5, 255) for "#12345g". -/
theorem HexColour_accepts_non_hex :
    isHexSpec (TrimHash "zzz".data) = false ∧
    HexColour "zzz" = some { R := 0, G := 0, B := 0, A := 255 } ∧
    isHexSpec (TrimHash "#12345g".data) = false ∧
    HexColour "#12345g" = some { R := 18, G := 52, B := 5, A := 255 } := by
  decide

end Framebuf
